import Mathlib

/-
  Shallow embedding of the classical SAT engine of the 3SAToracle repository
  (lib/src/sat_solver.cpp). The C++ state is modelled explicitly:

  * `SATSolver::Clause`  = std::vector<int>      -->  List Int
  * `SATSolver::Formula` = std::vector<Clause>   -->  List (List Int)
  * the assignment       = std::vector<bool>     -->  List Bool

  Member functions that mutate the object become state-passing functions.
  The C++ `unit_propagate` while-loop and the recursive `dpll` have no
  syntactic termination measure, and they really do diverge on formulas
  containing the invalid literal 0; both are therefore written with an
  explicit fuel argument, where the result `none` models non-termination.
  For formulas whose literals are all nonzero (the only formulas the data
  model of the design admits) the chosen fuel is proved sufficient, so the
  embedding computes exactly what the C++ computes there.
-/

namespace sat_solver

abbrev Clause := List Int

abbrev Formula := List Clause

abbrev Assignment := List Bool

/-- Reading `assignment[var]` (in every reachable call the index is in bounds,
because the vector has size `num_variables_ + 1` and every variable magnitude
is at most `num_variables_`). -/
def getVar (α : Assignment) (v : Nat) : Bool :=
  α.getD v false

/-- The condition `(lit > 0 && var_value) || (lit < 0 && !var_value)` of
`SATSolver::simplify`: the literal is satisfied by the assignment. -/
def litSat (α : Assignment) (l : Int) : Bool :=
  (decide (0 < l) && getVar α l.natAbs) || (decide (l < 0) && !getVar α l.natAbs)

/-- The condition `(lit > 0 && !var_value) || (lit < 0 && var_value)` of
`SATSolver::simplify`: the literal is falsified by the assignment. -/
def litFals (α : Assignment) (l : Int) : Bool :=
  (decide (0 < l) && !getVar α l.natAbs) || (decide (l < 0) && getVar α l.natAbs)

/-- The inner literal loop of `SATSolver::simplify` on one clause: a satisfied
literal drops the whole clause (`none`), a falsified literal is erased, any
other literal (possible only for the invalid literal 0) is kept. -/
def simplifyClause (α : Assignment) : Clause → Option Clause
  | [] => some []
  | l :: ls =>
    if litSat α l then none
    else if litFals α l then simplifyClause α ls
    else
      match simplifyClause α ls with
      | none => none
      | some ls' => some (l :: ls')

/-- `SATSolver::simplify`: erase satisfied clauses, erase falsified literals,
keep clauses that become empty. -/
def simplify (F : Formula) (α : Assignment) : Formula :=
  F.filterMap (simplifyClause α)

/-- Writing `assignment[var] = (lit > 0)` as done by `unit_propagate`. -/
def setLit (α : Assignment) (l : Int) : Assignment :=
  α.set l.natAbs (decide (0 < l))

/-- The scan of `unit_propagate` for the first clause with exactly one
literal; returns that literal. -/
def findUnit : Formula → Option Int
  | [] => none
  | [l] :: _ => some l
  | [] :: cs => findUnit cs
  | (_ :: _ :: _) :: cs => findUnit cs

/-- The check `clause.empty()` over the whole formula. -/
def hasEmptyClause (F : Formula) : Bool :=
  F.any List.isEmpty

/-- A clause of exactly one literal is present. -/
def hasUnitClause (F : Formula) : Bool :=
  F.any (fun c => c.length == 1)

/-- Total number of literals of the formula. -/
def totalLits (F : Formula) : Nat :=
  (F.map List.length).sum

/-- The while-loop of `SATSolver::unit_propagate`, with fuel: while some unit
clause exists, assign its literal and simplify, then rescan from the start. -/
def unitPropagateAux : Nat → Formula → Assignment → Option (Formula × Assignment)
  | 0, _, _ => none
  | fuel + 1, F, α =>
    match findUnit F with
    | none => some (F, α)
    | some l =>
      let α' := setLit α l
      unitPropagateAux fuel (simplify F α') α'

/-- `SATSolver::unit_propagate`: run the loop, then report a conflict exactly
when an empty clause is present. The fuel `totalLits F + 1` is sufficient for
every formula free of the invalid literal 0 (proved below); `none` models the
divergence the C++ loop exhibits on zero literals. -/
def unit_propagate (F : Formula) (α : Assignment) : Option (Formula × Assignment × Bool) :=
  match unitPropagateAux (totalLits F + 1) F α with
  | none => none
  | some (F', α') => some (F', α', hasEmptyClause F')

/-- Variable `v` occurs in a positive literal (the set `positive_literals` of
`pure_literal_eliminate` holds exactly these variables). -/
def occursPos (F : Formula) (v : Nat) : Bool :=
  F.any (fun c => c.any (fun l => decide (0 < l) && (l.natAbs == v)))

/-- Variable `v` occurs in a negative literal (the set `negative_literals`). -/
def occursNeg (F : Formula) (v : Nat) : Bool :=
  F.any (fun c => c.any (fun l => decide (l < 0) && (l.natAbs == v)))

/-- Variable `v` occurs in some literal (the set built by `choose_variable`). -/
def occursVar (F : Formula) (v : Nat) : Bool :=
  F.any (fun c => c.any (fun l => l.natAbs == v))

/-- Pure positive variable: occurs positively, never negatively. -/
def purePos (F : Formula) (v : Nat) : Bool :=
  occursPos F v && !occursNeg F v

/-- Pure negative variable: occurs negatively, never positively. -/
def pureNeg (F : Formula) (v : Nat) : Bool :=
  occursNeg F v && !occursPos F v

/-- Pure variable of either polarity. -/
def isPure (F : Formula) (v : Nat) : Bool :=
  purePos F v || pureNeg F v

/-- The running maximum `max m |lit|` over one clause, exactly the loop of
`SATSolver::add_clause` updating `num_variables_`. -/
def clauseMax (c : Clause) (n : Nat) : Nat :=
  c.foldl (fun m l => max m l.natAbs) n

/-- Maximum literal magnitude over a clause list (0 when empty). -/
def maxLitMag (cs : List Clause) : Nat :=
  cs.foldl (fun n c => clauseMax c n) 0

/-- Least `v` in `[s, s + limit)` with `p v = true`. A `std::set<int>` of
variable indices iterates in ascending order, so taking the first element of
such a set that satisfies a test is the same as scanning all candidate
indices upward and stopping at the first that both occurs in the set and
satisfies the test; `findLeast` implements that upward scan. -/
def findLeast (p : Nat → Bool) : Nat → Nat → Option Nat
  | _, 0 => none
  | s, limit + 1 => if p s then some s else findLeast p (s + 1) limit

/-- First pure positive variable in ascending order (the first loop of
`SATSolver::pure_literal_eliminate` over the set `positive_literals`). -/
def firstPurePos (F : Formula) : Option Nat :=
  findLeast (fun v => purePos F v) 0 (maxLitMag F + 1)

/-- First pure negative variable in ascending order (the second loop of
`SATSolver::pure_literal_eliminate` over the set `negative_literals`). -/
def firstPureNeg (F : Formula) : Option Nat :=
  findLeast (fun v => pureNeg F v) 0 (maxLitMag F + 1)

/-- `SATSolver::pure_literal_eliminate`: fix the first pure positive variable
to true if one exists, otherwise the first pure negative variable to false,
simplify, and report whether anything was fixed. -/
def pure_literal_eliminate (F : Formula) (α : Assignment) : Formula × Assignment × Bool :=
  match firstPurePos F with
  | some v =>
    let α' := α.set v true
    (simplify F α', α', true)
  | none =>
    match firstPureNeg F with
    | some v =>
      let α' := α.set v false
      (simplify F α', α', true)
    | none => (F, α, false)

/-- `SATSolver::choose_variable`: the smallest variable magnitude occurring in
the formula (`*unassigned_vars.begin()` of the ascending `std::set`), or
`none` for the sentinel `-1` when no literal remains. -/
def choose_variable (F : Formula) : Option Nat :=
  findLeast (fun v => occursVar F v) 0 (maxLitMag F + 1)

/-- `SATSolver::dpll`, with fuel bounding the recursion depth; `none` models
divergence (reachable only through the invalid literal 0). Both `formula` and
`assignment` are passed by reference in the C++, but each branch recursion
receives a fresh copy of the formula while the assignment vector is shared,
so the assignment is threaded through and returned. The trailing `Nat`
argument mirrors the unused `var` parameter of the source. -/
def dpll : Nat → Formula → Assignment → Nat → Option (Bool × Assignment)
  | 0, _, _, _ => none
  | fuel + 1, F, α, var =>
    if F.isEmpty then some (true, α)
    else if hasEmptyClause F then some (false, α)
    else
      match unit_propagate F α with
      | none => none
      | some (F₁, α₁, conflict) =>
        if conflict then some (false, α₁)
        else
          match pure_literal_eliminate F₁ α₁ with
          | (F₂, α₂, _) =>
            if F₂.isEmpty then some (true, α₂)
            else
              match choose_variable F₂ with
              | none => some (true, α₂)
              | some v =>
                match dpll fuel (simplify F₂ (α₂.set v true)) (α₂.set v true) (v + 1) with
                | none => none
                | some (true, α₄) => some (true, α₄)
                | some (false, α₄) =>
                  dpll fuel (simplify F₂ (α₄.set v false)) (α₄.set v false) (v + 1)

/-- The solver state: the stored formula, the derived variable count, the
cached assignment vector and its validity flag. -/
structure SATSolver where
  formula_ : Formula
  num_variables_ : Nat
  assignment_ : Assignment
  has_satisfying_assignment_ : Bool
deriving DecidableEq, Repr

/-- The default-constructed solver. -/
def SATSolver.new : SATSolver :=
  { formula_ := [], num_variables_ := 0, assignment_ := [], has_satisfying_assignment_ := false }

/-- `SATSolver::add_clause`: append the clause, raise `num_variables_` to every
literal magnitude, invalidate and clear the cached assignment. -/
def SATSolver.add_clause (s : SATSolver) (c : Clause) : SATSolver :=
  { formula_ := s.formula_ ++ [c]
    num_variables_ := clauseMax c s.num_variables_
    assignment_ := []
    has_satisfying_assignment_ := false }

/-- `SATSolver::clear`: reset everything. -/
def SATSolver.clear (_ : SATSolver) : SATSolver :=
  SATSolver.new

/-- `SATSolver::is_satisfiable`: empty formula is immediately satisfiable
(without touching the cached assignment); otherwise run `dpll` on a fresh
all-false assignment of size `num_variables_ + 1` and cache the result. Any
recursion of `dpll` immediately hits a base case (for zero-free formulas the
formula passed down is empty or consists of empty clauses), so the fuel
`num_variables_ + 2` is sufficient there; `none` models divergence. -/
def SATSolver.is_satisfiable (s : SATSolver) : Option (Bool × SATSolver) :=
  if s.formula_.isEmpty then some (true, s)
  else
    match dpll (s.num_variables_ + 2) s.formula_ (List.replicate (s.num_variables_ + 1) false) 1 with
    | none => none
    | some (r, α) =>
      some (r, { s with assignment_ := α, has_satisfying_assignment_ := r })

/-- Models `std::vector<bool>(assignment_.begin() + 1, assignment_.end())`.
For an empty vector, `begin() + 1` is already past the end and the iterator
range is invalid: that out-of-bounds access is undefined behavior and is
returned as `none`; every in-bounds case returns the tail of the vector. -/
def mkResult (α : Assignment) : Option (List Bool) :=
  if α.isEmpty then none else some (α.drop 1)

/-- `SATSolver::get_satisfying_assignment`: use the cache when valid, otherwise
recompute; return the empty vector when unsatisfiable, and otherwise the
cached assignment without index 0. The outer `none` models a diverging
`is_satisfiable` call, the inner `none` the invalid iterator range. -/
def SATSolver.get_satisfying_assignment (s : SATSolver) :
    Option (Option (List Bool) × SATSolver) :=
  if s.has_satisfying_assignment_ then some (mkResult s.assignment_, s)
  else
    match s.is_satisfiable with
    | none => none
    | some (false, s') => some (some [], s')
    | some (true, s') => some (mkResult s'.assignment_, s')

/-- Building a solver from a clause list by repeated `add_clause`, as both
`utils::are_equivalent` and the Python convenience constructor do. -/
def solverOfList (F : Formula) : SATSolver :=
  F.foldl SATSolver.add_clause SATSolver.new

/-- One mutating operation on the solver state (the two mutators of the
Formula Store interface). -/
inductive SolverOp where
  | addClause (c : Clause)
  | clear
deriving DecidableEq, Repr

/-- Apply one mutating operation. -/
def applyOp (s : SATSolver) (op : SolverOp) : SATSolver :=
  match op with
  | .addClause c => s.add_clause c
  | .clear => s.clear

/-- Run a sequence of mutating operations on a fresh solver. -/
def runOps (ops : List SolverOp) : SATSolver :=
  ops.foldl applyOp SATSolver.new

/-- Reference bookkeeping: the clauses added since the last clear. -/
def clauseStep (acc : List Clause) (op : SolverOp) : List Clause :=
  match op with
  | .addClause c => acc ++ [c]
  | .clear => []

/-- The clauses added since the last clear, over a whole operation sequence. -/
def clausesSinceClear (ops : List SolverOp) : List Clause :=
  ops.foldl clauseStep []

namespace utils

/-- `utils::generate_random_3sat`. The C++ seeds a `std::mt19937` from
`std::random_device` on every call and takes no seed parameter; the stream of
values produced through `uniform_int_distribution(1, num_vars)` and
`uniform_int_distribution(0, 1)` is modelled by the explicit draw functions
`varDraw` and `signDraw` (draw `idx` feeds literal slot `idx`), which stand
for the nondeterministic entropy of the device-seeded engine. -/
def generate_random_3sat (num_vars num_clauses : Nat) (varDraw signDraw : Nat → Nat) : Formula :=
  (List.range num_clauses).map (fun i =>
    (List.range 3).map (fun j =>
      let idx := 3 * i + j
      let v : Int := Int.ofNat (varDraw idx)
      if signDraw idx = 1 then v else -v))

/-- `utils::are_equivalent`: solve both formulas independently; differing
verdicts give `false`, both unsatisfiable gives `true`, and both satisfiable
also gives `true` (the documented approximation). -/
def are_equivalent (f1 f2 : Formula) : Option Bool :=
  match (solverOfList f1).is_satisfiable with
  | none => none
  | some (sat1, _) =>
    match (solverOfList f2).is_satisfiable with
    | none => none
    | some (sat2, _) =>
      if sat1 != sat2 then some false
      else if !sat1 then some true
      else some true

end utils

/-- Every literal of the formula is nonzero: the validity constraint of the
data model (a literal is a nonzero integer; 0 is invalid). -/
def noZeroLit (F : Formula) : Bool :=
  F.all (fun c => c.all (fun l => !(l == 0)))

/-- Brute-force referee semantics: truth of one literal under a total
assignment over variables `1..n`, given as a 0-indexed boolean list
(`σ.getD (v - 1) false` is the value of variable `v`). -/
def evalLit (σ : List Bool) (l : Int) : Bool :=
  if 0 < l then σ.getD (l.natAbs - 1) false else !(σ.getD (l.natAbs - 1) false)

/-- Brute-force referee semantics: a clause is a disjunction. -/
def evalClause (σ : List Bool) (c : Clause) : Bool :=
  c.any (evalLit σ)

/-- Brute-force referee semantics: a formula is a conjunction. -/
def evalFormula (σ : List Bool) (F : Formula) : Bool :=
  F.all (evalClause σ)

/-- Modelled from the spec, section 4.2 (the Simplifier contract; this partial
assignment interface is what the source lacks): a literal is satisfied when
its variable is assigned the polarity the literal asks for. -/
def litSatP (ρ : Nat → Option Bool) (l : Int) : Bool :=
  match ρ l.natAbs with
  | some b => if 0 < l then b else !b
  | none => false

/-- Modelled from the spec, section 4.2: a literal is falsified when its
variable is assigned and has the opposite polarity; unassigned is neither. -/
def litFalsP (ρ : Nat → Option Bool) (l : Int) : Bool :=
  match ρ l.natAbs with
  | some b => if 0 < l then !b else b
  | none => false

/-- Modelled from the spec, section 4.2: drop each clause containing a
satisfied literal, remove every assigned-and-falsified literal from the
remaining clauses, leave literals of unassigned variables untouched, and keep
clauses that become empty. -/
def simplifySpec (F : Formula) (ρ : Nat → Option Bool) : Formula :=
  (F.filter (fun c => !c.any (litSatP ρ))).map (fun c => c.filter (fun l => !litFalsP ρ l))

/-- Peeling one literal off the running maximum of a clause. -/
theorem clauseMax_cons (a : Int) (t : Clause) (n : Nat) :
    clauseMax (a :: t) n = clauseMax t (max n a.natAbs) := rfl

/-- The running maximum never decreases below its initial value. -/
theorem le_clauseMax (c : Clause) : ∀ n : Nat, n ≤ clauseMax c n := by
  induction c with
  | nil => intro n; exact Nat.le_refl n
  | cons a t ih =>
    intro n
    exact Nat.le_trans (Nat.le_max_left n a.natAbs) (ih (max n a.natAbs))

/-- Every literal magnitude of a clause is bounded by the running maximum. -/
theorem natAbs_le_clauseMax {l : Int} {c : Clause} (h : l ∈ c) :
    ∀ n : Nat, l.natAbs ≤ clauseMax c n := by
  induction c with
  | nil => cases h
  | cons a t ih =>
    intro n
    rw [clauseMax_cons]
    rcases List.mem_cons.mp h with rfl | hmem
    · exact Nat.le_trans (Nat.le_max_right n l.natAbs) (le_clauseMax t _)
    · exact ih hmem _

/-- The formula-level running maximum never decreases below its initial value. -/
theorem le_foldl_clauseMax (F : Formula) : ∀ n : Nat, n ≤ F.foldl (fun m c => clauseMax c m) n := by
  induction F with
  | nil => intro n; exact Nat.le_refl n
  | cons c cs ih =>
    intro n
    exact Nat.le_trans (le_clauseMax c n) (ih (clauseMax c n))

/-- Every literal magnitude of the formula is bounded by `maxLitMag`. -/
theorem natAbs_le_maxLitMag {F : Formula} {c : Clause} {l : Int}
    (hc : c ∈ F) (hl : l ∈ c) : l.natAbs ≤ maxLitMag F := by
  have key : ∀ (G : Formula) (n : Nat), c ∈ G → l.natAbs ≤ G.foldl (fun m c => clauseMax c m) n := by
    intro G
    induction G with
    | nil => intro n h; cases h
    | cons d ds ih =>
      intro n h
      rcases List.mem_cons.mp h with rfl | hmem
      · exact Nat.le_trans (natAbs_le_clauseMax hl n) (le_foldl_clauseMax ds _)
      · exact ih _ hmem
  exact key F 0 hc

/-- A variable occurring in the formula is bounded by `maxLitMag`. -/
theorem occursVar_le_maxLitMag {F : Formula} {v : Nat} (h : occursVar F v = true) :
    v ≤ maxLitMag F := by
  rw [occursVar, List.any_eq_true] at h
  obtain ⟨c, hc, hl⟩ := h
  rw [List.any_eq_true] at hl
  obtain ⟨l, hl, hv⟩ := hl
  have hv' : l.natAbs = v := by simpa using hv
  exact hv' ▸ natAbs_le_maxLitMag hc hl

/-- A variable occurring positively is bounded by `maxLitMag`. -/
theorem occursPos_le_maxLitMag {F : Formula} {v : Nat} (h : occursPos F v = true) :
    v ≤ maxLitMag F := by
  rw [occursPos, List.any_eq_true] at h
  obtain ⟨c, hc, hl⟩ := h
  rw [List.any_eq_true] at hl
  obtain ⟨l, hl, hv⟩ := hl
  have hv' : l.natAbs = v := by
    simp only [Bool.and_eq_true, beq_iff_eq, decide_eq_true_eq] at hv
    exact hv.2
  exact hv' ▸ natAbs_le_maxLitMag hc hl

/-- A variable occurring negatively is bounded by `maxLitMag`. -/
theorem occursNeg_le_maxLitMag {F : Formula} {v : Nat} (h : occursNeg F v = true) :
    v ≤ maxLitMag F := by
  rw [occursNeg, List.any_eq_true] at h
  obtain ⟨c, hc, hl⟩ := h
  rw [List.any_eq_true] at hl
  obtain ⟨l, hl, hv⟩ := hl
  have hv' : l.natAbs = v := by
    simp only [Bool.and_eq_true, beq_iff_eq, decide_eq_true_eq] at hv
    exact hv.2
  exact hv' ▸ natAbs_le_maxLitMag hc hl

/-- What a successful ascending scan returns: a witness of the predicate that
is least among all candidates from the start of the scan. -/
theorem findLeast_some {p : Nat → Bool} :
    ∀ {limit s v : Nat}, findLeast p s limit = some v →
      p v = true ∧ s ≤ v ∧ ∀ u, s ≤ u → u < v → p u = false := by
  intro limit
  induction limit with
  | zero => intro s v h; cases h
  | succ n ih =>
    intro s v h
    rw [findLeast] at h
    by_cases hp : p s = true
    · rw [if_pos hp] at h
      cases h
      exact ⟨hp, Nat.le_refl _, fun u h1 h2 => absurd (Nat.lt_of_le_of_lt h1 h2) (Nat.lt_irrefl _)⟩
    · rw [if_neg hp] at h
      obtain ⟨h1, h2, h3⟩ := ih h
      refine ⟨h1, Nat.le_trans (Nat.le_succ s) h2, fun u hu1 hu2 => ?_⟩
      rcases Nat.eq_or_lt_of_le hu1 with rfl | hlt
      · exact Bool.eq_false_iff.mpr hp
      · exact h3 u hlt hu2

/-- What a failed ascending scan guarantees: no candidate in the scanned
window satisfies the predicate. -/
theorem findLeast_none {p : Nat → Bool} :
    ∀ {limit s : Nat}, findLeast p s limit = none →
      ∀ u, s ≤ u → u < s + limit → p u = false := by
  intro limit
  induction limit with
  | zero => intro s _ u h1 h2; omega
  | succ n ih =>
    intro s h u h1 h2
    rw [findLeast] at h
    by_cases hp : p s = true
    · rw [if_pos hp] at h; cases h
    · rw [if_neg hp] at h
      rcases Nat.eq_or_lt_of_le h1 with rfl | hlt
      · exact Bool.eq_false_iff.mpr hp
      · exact ih h u hlt (by omega)

/-- Under a total boolean vector, every nonzero literal is either satisfied or
falsified: the third branch of the literal loop of `simplify` is unreachable
for valid literals. -/
theorem litSat_or_litFals (α : Assignment) {l : Int} (h : l ≠ 0) :
    litSat α l = true ∨ litFals α l = true := by
  rcases lt_or_gt_of_ne h with hneg | hpos
  · have h1 : decide (0 < l) = false := decide_eq_false (by omega)
    have h2 : decide (l < 0) = true := decide_eq_true hneg
    cases hb : getVar α l.natAbs
    · left; simp [litSat, h1, h2, hb]
    · right; simp [litFals, h1, h2, hb]
  · have h1 : decide (0 < l) = true := decide_eq_true hpos
    have h2 : decide (l < 0) = false := decide_eq_false (by omega)
    cases hb : getVar α l.natAbs
    · right; simp [litFals, h1, h2, hb]
    · left; simp [litSat, h1, h2, hb]

/-- On a clause free of the literal 0, the clause loop of `simplify` either
drops the clause or strips it down to the empty clause. -/
theorem simplifyClause_none_or_empty (α : Assignment) :
    ∀ {c : Clause}, (∀ l ∈ c, l ≠ 0) →
      simplifyClause α c = none ∨ simplifyClause α c = some [] := by
  intro c
  induction c with
  | nil => intro _; right; rfl
  | cons l ls ih =>
    intro h
    have hl : l ≠ 0 := h l (List.mem_cons_self _ _)
    cases hs : litSat α l
    · have hf : litFals α l = true := by
        rcases litSat_or_litFals α hl with h' | h'
        · rw [hs] at h'; cases h'
        · exact h'
      have : simplifyClause α (l :: ls) = simplifyClause α ls := by
        simp [simplifyClause, hs, hf]
      rw [this]
      exact ih (fun x hx => h x (List.mem_cons_of_mem l hx))
    · left; simp [simplifyClause, hs]

/-- On a formula free of the literal 0, every clause surviving `simplify` is
empty: with the total assignment vector there is nothing left to decide. -/
theorem simplify_clauses_empty {F : Formula} (α : Assignment) (hz : noZeroLit F = true) :
    ∀ c ∈ simplify F α, c = [] := by
  intro c hc
  rw [simplify, List.mem_filterMap] at hc
  obtain ⟨c₀, hc₀, hsc⟩ := hc
  have hz₀ : ∀ l ∈ c₀, l ≠ 0 := by
    rw [noZeroLit, List.all_eq_true] at hz
    have := hz c₀ hc₀
    rw [List.all_eq_true] at this
    intro l hl
    have h := this l hl
    simpa using h
  rcases simplifyClause_none_or_empty α hz₀ with h | h
  · rw [h] at hsc; cases hsc
  · rw [h] at hsc; cases hsc; rfl

/-- A formula of empty clauses has no unit clause to find. -/
theorem findUnit_eq_none_of_all_empty :
    ∀ {F : Formula}, (∀ c ∈ F, c = []) → findUnit F = none := by
  intro F
  induction F with
  | nil => intro _; rfl
  | cons c cs ih =>
    intro h
    have hc : c = [] := h c (List.mem_cons_self _ _)
    subst hc
    exact ih (fun x hx => h x (List.mem_cons_of_mem _ hx))

/-- Finding a unit clause needs at least one literal in the formula. -/
theorem totalLits_pos_of_findUnit_some :
    ∀ {F : Formula} {l : Int}, findUnit F = some l → 1 ≤ totalLits F := by
  intro F
  induction F with
  | nil => intro l h; cases h
  | cons c cs ih =>
    intro l h
    match c, h with
    | [], h =>
      have := ih h
      simpa [totalLits] using this
    | [a], _ => simp [totalLits]
    | a :: b :: t, h =>
      simp [totalLits]
      omega

/-- When the scan finds no unit clause, no clause has exactly one literal. -/
theorem hasUnitClause_eq_false_of_findUnit_none :
    ∀ {F : Formula}, findUnit F = none → hasUnitClause F = false := by
  intro F
  induction F with
  | nil => intro _; rfl
  | cons c cs ih =>
    intro h
    match c, h with
    | [], h => simpa [hasUnitClause] using ih h
    | a :: b :: t, h => simpa [hasUnitClause] using ih h

/-- Termination of the unit-propagation loop on zero-free formulas: the fuel
`totalLits F + 1` always reaches the fixed point, and the resulting formula
has no unit clause left. -/
theorem unitPropagateAux_total {F : Formula} (α : Assignment) (hz : noZeroLit F = true) :
    ∃ F' α', unitPropagateAux (totalLits F + 1) F α = some (F', α') ∧
      findUnit F' = none := by
  cases hu : findUnit F with
  | none =>
    refine ⟨F, α, ?_, hu⟩
    simp [unitPropagateAux, hu]
  | some l =>
    have h1 : 1 ≤ totalLits F := totalLits_pos_of_findUnit_some hu
    obtain ⟨m, hm⟩ : ∃ m, totalLits F = m + 1 := ⟨totalLits F - 1, by omega⟩
    have hall : ∀ c ∈ simplify F (setLit α l), c = [] := simplify_clauses_empty _ hz
    have hu1 : findUnit (simplify F (setLit α l)) = none :=
      findUnit_eq_none_of_all_empty hall
    refine ⟨simplify F (setLit α l), setLit α l, ?_, hu1⟩
    rw [hm]
    simp [unitPropagateAux, hu, hu1]

/-- Claim C4: on every formula of valid (nonzero) literals and every
assignment, unit propagation terminates; afterwards no unit clause remains,
and a conflict is reported exactly when an empty clause is present — so
either no unit clause, no empty clause and no conflict, or an empty clause
and a conflict. -/
theorem C4_unit_propagate_terminates (F : Formula) (α : Assignment)
    (hz : noZeroLit F = true) :
    ∃ F' α' conflict, unit_propagate F α = some (F', α', conflict) ∧
      hasUnitClause F' = false ∧
      conflict = hasEmptyClause F' ∧
      ((hasUnitClause F' = false ∧ hasEmptyClause F' = false ∧ conflict = false) ∨
        (hasEmptyClause F' = true ∧ conflict = true)) := by
  obtain ⟨F', α', hrun, hu⟩ := unitPropagateAux_total α hz
  have hnu : hasUnitClause F' = false := hasUnitClause_eq_false_of_findUnit_none hu
  refine ⟨F', α', hasEmptyClause F', ?_, hnu, rfl, ?_⟩
  · simp [unit_propagate, hrun]
  · cases he : hasEmptyClause F' with
    | false => exact Or.inl ⟨hnu, rfl, rfl⟩
    | true => exact Or.inr ⟨rfl, rfl⟩

/-- Witness for C4 at the contradiction [[1], [-1]]: propagation terminates
and reports the conflict. -/
theorem C4_witness :
    noZeroLit [[1], [-1]] = true ∧
      (∃ F' α' conflict, unit_propagate [[1], [-1]] [false, false] = some (F', α', conflict) ∧
        hasUnitClause F' = false ∧
        conflict = hasEmptyClause F' ∧
        ((hasUnitClause F' = false ∧ hasEmptyClause F' = false ∧ conflict = false) ∨
          (hasEmptyClause F' = true ∧ conflict = true))) :=
  ⟨by decide, C4_unit_propagate_terminates [[1], [-1]] [false, false] (by decide)⟩

/-- Appending one clause updates the maximum literal magnitude through the
clause-level running maximum, exactly as `add_clause` does. -/
theorem maxLitMag_append (cs : List Clause) (c : Clause) :
    maxLitMag (cs ++ [c]) = clauseMax c (maxLitMag cs) := by
  simp [maxLitMag, List.foldl_append]

/-- Invariant of the operation fold: variable count tracks the clauses added
since the last clear, and the stored formula is exactly those clauses. -/
theorem runOps_invariant (ops : List SolverOp) :
    ∀ (s : SATSolver) (cs : List Clause),
      s.num_variables_ = maxLitMag cs → s.formula_ = cs →
      (ops.foldl applyOp s).num_variables_ = maxLitMag (ops.foldl clauseStep cs) ∧
        (ops.foldl applyOp s).formula_ = ops.foldl clauseStep cs := by
  induction ops with
  | nil => intro s cs h1 h2; exact ⟨h1, h2⟩
  | cons op t ih =>
    intro s cs h1 h2
    cases op with
    | addClause c =>
      refine ih _ (cs ++ [c]) ?_ ?_
      · simp [applyOp, SATSolver.add_clause, clauseStep, maxLitMag_append, h1]
      · simp [applyOp, SATSolver.add_clause, clauseStep, h2]
    | clear =>
      refine ih _ [] ?_ ?_
      · simp [applyOp, SATSolver.clear, SATSolver.new, clauseStep, maxLitMag]
      · simp [applyOp, SATSolver.clear, SATSolver.new, clauseStep]

/-- Claim C9: after every sequence of add_clause and clear operations,
`num_variables_` equals the maximum literal magnitude over the clauses added
since the last clear, 0 when none were; the stored formula is exactly those
clauses. -/
theorem C9_num_variables_invariant (ops : List SolverOp) :
    (runOps ops).num_variables_ = maxLitMag (clausesSinceClear ops) ∧
      (runOps ops).formula_ = clausesSinceClear ops ∧
      (clausesSinceClear ops = [] → (runOps ops).num_variables_ = 0) := by
  obtain ⟨h1, h2⟩ := runOps_invariant ops SATSolver.new [] rfl rfl
  refine ⟨h1, h2, fun h => ?_⟩
  have h' : ops.foldl clauseStep [] = [] := h
  exact h1.trans (by rw [h']; rfl)

/-- Claim C1: is_satisfiable is claimed to return false exactly when every
total assignment over the variables falsifies some clause. Refuted at the
formula [[1], [2]]: the solver answers false (unsatisfiable), yet the total
assignment making both variables true satisfies every clause. The slip: the
assignment vector has no unassigned state, so the simplification after the
first unit step evaluates the whole formula under a total assignment and the
surviving second clause collapses to an empty clause, which the propagation
loop reports as a conflict and `dpll` turns into a definitive false. -/
theorem C1_verdict_contradicts_bruteforce :
    ((solverOfList [[1], [2]]).is_satisfiable).map Prod.fst = some false ∧
      evalFormula [true, true] [[1], [2]] = true := by
  decide

/-- Claim C2: on a satisfiable formula the returned assignment is claimed to
satisfy every clause. Refuted at [[1, 2], [2, 3]]: the solver answers true,
but the assignment it returns, x1 = true, x2 = false, x3 = false, falsifies
the clause [2, 3]. The pure-literal pass fixes x1 = true, the simplification
under the resulting total assignment strips the clause [2, 3] down to an
empty clause, and `dpll` then declares success because no variable occurs in
the remaining formula, never noticing the empty clause it left behind. -/
theorem C2_returned_assignment_not_satisfying :
    ((solverOfList [[1, 2], [2, 3]]).is_satisfiable).map Prod.fst = some true ∧
      ((solverOfList [[1, 2], [2, 3]]).get_satisfying_assignment).map Prod.fst =
        some (some [true, false, false]) ∧
      evalFormula [true, false, false] [[1, 2], [2, 3]] = false := by
  decide

/-- Claim C3: simplify is claimed to leave literals of unassigned variables
untouched. The code has no unassigned state: the fresh search state is the
all-false vector, and there `simplify` treats the never-assigned variable 1
as assigned false, removing the literal of the clause [1] and leaving the
empty clause, while the Simplifier contract of the spec leaves the clause
untouched under the empty partial assignment. -/
theorem C3_unassigned_literal_not_left_untouched :
    simplifySpec [[1]] (fun _ => none) = [[1]] ∧
      simplify [[1]] [false, false] = [[]] ∧
      simplify [[1]] [false, false] ≠ simplifySpec [[1]] (fun _ => none) := by
  refine ⟨rfl, rfl, ?_⟩
  decide

/-- Claim C8: the generator is claimed to be seedable and a deterministic
function of (num_vars, num_clauses, k, seed). The source function takes only
(num_vars, num_clauses) — there is no seed parameter — and seeds the engine
from std::random_device on every call. With the device entropy made explicit
as draw streams, two calls with identical arguments 5 and 10 but different
entropy (all variable draws 1 versus all variable draws 2, both inside the
distribution range 1..5) produce different clause sequences, so the output is
not a function of the call arguments. -/
theorem C8_generator_not_seeded :
    utils.generate_random_3sat 5 10 (fun _ => 1) (fun _ => 1) ≠
        utils.generate_random_3sat 5 10 (fun _ => 2) (fun _ => 1) ∧
      (utils.generate_random_3sat 5 10 (fun _ => 1) (fun _ => 1)).length = 10 ∧
      (utils.generate_random_3sat 5 10 (fun _ => 1) (fun _ => 1)).all
        (fun c => c.length == 3) = true := by
  refine ⟨?_, rfl, rfl⟩
  decide

/-- Claim C10: on a solver with zero stored clauses, get_satisfying_assignment
is claimed to be well defined and to return the empty sequence. The first two
conjuncts confirm the premises (the empty formula is satisfiable and the
internal assignment vector is left empty), but exactly because of that the
construction from assignment_.begin() + 1 runs on an empty vector, an invalid
iterator range, returned here as the undefined-behavior marker `none` instead
of the claimed empty sequence. -/
theorem C10_empty_solver_invalid_range :
    SATSolver.new.is_satisfiable = some (true, SATSolver.new) ∧
      SATSolver.new.assignment_ = [] ∧
      SATSolver.new.get_satisfying_assignment = some (none, SATSolver.new) := by
  refine ⟨rfl, rfl, rfl⟩

/-- Claim C5, counterexample: pure-literal elimination is claimed to fix the
pure variable of lowest index. In [[5, 1], [-1, -2]] the pure variables are 2
(purely negative) and 5 (purely positive), so the claim demands variable 2 be
fixed; the run instead fixes variable 5 to true (the positive-literal loop is
scanned first), and its output assignment is not reachable by fixing
variable 2 at all. -/
theorem C5_counterexample_lowest_pure_not_chosen :
    pure_literal_eliminate [[5, 1], [-1, -2]] (List.replicate 6 false) =
        ([], [false, false, false, false, false, true], true) ∧
      isPure [[5, 1], [-1, -2]] 2 = true ∧
      isPure [[5, 1], [-1, -2]] 5 = true ∧
      (∀ u < 2, isPure [[5, 1], [-1, -2]] u = false) ∧
      (∀ b : Bool, (List.replicate 6 false).set 2 b ≠
        [false, false, false, false, false, true]) := by
  refine ⟨rfl, rfl, rfl, ?_, ?_⟩ <;> decide

/-- Claim C5 as amended: on a formula with at least one pure variable, one
invocation of pure-literal elimination fixes exactly one variable — the
lowest-index variable occurring only positively if any exists, otherwise the
lowest-index variable occurring only negatively — to the polarity satisfying
its occurrences, then simplifies, and reports that it fixed something. -/
theorem C5_pure_literal_eliminate_amended (F : Formula) (α : Assignment)
    (h : ∃ v, purePos F v = true ∨ pureNeg F v = true) :
    ∃ v b, pure_literal_eliminate F α = (simplify F (α.set v b), α.set v b, true) ∧
      ((b = true ∧ purePos F v = true ∧ ∀ u < v, purePos F u = false) ∨
        (b = false ∧ (∀ u, purePos F u = false) ∧ pureNeg F v = true ∧
          ∀ u < v, pureNeg F u = false)) := by
  cases hp : firstPurePos F with
  | some v =>
    obtain ⟨hpv, _, hmin⟩ := findLeast_some hp
    refine ⟨v, true, ?_, Or.inl ⟨rfl, hpv, fun u hu => hmin u (Nat.zero_le u) hu⟩⟩
    simp [pure_literal_eliminate, hp]
  | none =>
    have hnone : ∀ u, purePos F u = false := by
      intro u
      by_cases hlt : u < maxLitMag F + 1
      · exact findLeast_none hp u (Nat.zero_le u) (by omega)
      · cases hpp : purePos F u with
        | false => rfl
        | true =>
          exfalso
          have hocc : occursPos F u = true := (Bool.and_eq_true _ _ ▸ hpp).1
          exact hlt (Nat.lt_succ_of_le (occursPos_le_maxLitMag hocc))
    cases hn : firstPureNeg F with
    | some v =>
      obtain ⟨hnv, _, hmin⟩ := findLeast_some hn
      refine ⟨v, false, ?_,
        Or.inr ⟨rfl, hnone, hnv, fun u hu => hmin u (Nat.zero_le u) hu⟩⟩
      simp [pure_literal_eliminate, hp, hn]
    | none =>
      exfalso
      have hnone' : ∀ u, pureNeg F u = false := by
        intro u
        by_cases hlt : u < maxLitMag F + 1
        · exact findLeast_none hn u (Nat.zero_le u) (by omega)
        · cases hpn : pureNeg F u with
          | false => rfl
          | true =>
            have hocc : occursNeg F u = true := (Bool.and_eq_true _ _ ▸ hpn).1
            exact absurd (Nat.lt_succ_of_le (occursNeg_le_maxLitMag hocc)) hlt
      obtain ⟨v, hv⟩ := h
      rcases hv with hv | hv
      · rw [hnone v] at hv; cases hv
      · rw [hnone' v] at hv; cases hv

/-- Witness for the amended C5 at [[1, 2], [-1, 2]]: variable 2 is purely
positive, and one invocation fixes exactly one variable. -/
theorem C5_amended_witness :
    (∃ v, purePos [[1, 2], [-1, 2]] v = true ∨ pureNeg [[1, 2], [-1, 2]] v = true) ∧
      (∃ v b, pure_literal_eliminate [[1, 2], [-1, 2]] [false, false, false] =
          (simplify [[1, 2], [-1, 2]] ([false, false, false].set v b),
            [false, false, false].set v b, true) ∧
        ((b = true ∧ purePos [[1, 2], [-1, 2]] v = true ∧
            ∀ u < v, purePos [[1, 2], [-1, 2]] u = false) ∨
          (b = false ∧ (∀ u, purePos [[1, 2], [-1, 2]] u = false) ∧
            pureNeg [[1, 2], [-1, 2]] v = true ∧
            ∀ u < v, pureNeg [[1, 2], [-1, 2]] u = false))) :=
  ⟨⟨2, Or.inl (by decide)⟩,
    C5_pure_literal_eliminate_amended [[1, 2], [-1, 2]] [false, false, false]
      ⟨2, Or.inl (by decide)⟩⟩

/-- Claim C6: in a DPLL invocation that reaches the branching step (nonempty
formula, no empty clause, propagation without conflict, formula still
nonempty after the pure-literal pass), the branching variable is the smallest
variable index still occurring in the current formula, success is returned
when none remains, the true polarity is tried first, and when the
true-polarity recursion succeeds the result is that success — the false
branch appears only when the true branch fails. -/
theorem C6_branching_smallest_true_first (fuel : Nat) (F : Formula) (α : Assignment)
    (var : Nat) (F₁ F₂ : Formula) (α₁ α₂ : Assignment) (ch : Bool)
    (hne : F.isEmpty = false)
    (hnemp : hasEmptyClause F = false)
    (hup : unit_propagate F α = some (F₁, α₁, false))
    (hpl : pure_literal_eliminate F₁ α₁ = (F₂, α₂, ch))
    (hne2 : F₂.isEmpty = false) :
    (choose_variable F₂ = none → dpll (fuel + 1) F α var = some (true, α₂)) ∧
      ∀ v, choose_variable F₂ = some v →
        occursVar F₂ v = true ∧ (∀ u < v, occursVar F₂ u = false) ∧
        dpll (fuel + 1) F α var =
          (match dpll fuel (simplify F₂ (α₂.set v true)) (α₂.set v true) (v + 1) with
            | none => none
            | some (true, α₄) => some (true, α₄)
            | some (false, α₄) =>
              dpll fuel (simplify F₂ (α₄.set v false)) (α₄.set v false) (v + 1)) := by
  constructor
  · intro hcv
    simp [dpll, hne, hnemp, hup, hpl, hne2, hcv]
  · intro v hv
    obtain ⟨hocc, _, hmin⟩ := findLeast_some hv
    refine ⟨hocc, fun u hu => hmin u (Nat.zero_le u) hu, ?_⟩
    simp [dpll, hne, hnemp, hup, hpl, hne2, hv]

/-- Witness for C6 at the full two-variable contradiction, which reaches the
branching step with branching variable 1. -/
theorem C6_witness :
    occursVar [[1, 2], [1, -2], [-1, 2], [-1, -2]] 1 = true ∧
      (∀ u < 1, occursVar [[1, 2], [1, -2], [-1, 2], [-1, -2]] u = false) ∧
      dpll 2 [[1, 2], [1, -2], [-1, 2], [-1, -2]] [false, false, false] 1 =
        (match dpll 1 (simplify [[1, 2], [1, -2], [-1, 2], [-1, -2]]
            ([false, false, false].set 1 true)) ([false, false, false].set 1 true) 2 with
          | none => none
          | some (true, α₄) => some (true, α₄)
          | some (false, α₄) =>
            dpll 1 (simplify [[1, 2], [1, -2], [-1, 2], [-1, -2]] (α₄.set 1 false))
              (α₄.set 1 false) 2) :=
  (C6_branching_smallest_true_first 1 [[1, 2], [1, -2], [-1, 2], [-1, -2]]
      [false, false, false] 1 [[1, 2], [1, -2], [-1, 2], [-1, -2]]
      [[1, 2], [1, -2], [-1, 2], [-1, -2]] [false, false, false] [false, false, false]
      false rfl rfl (by decide) (by decide) rfl).2 1 (by decide)

/-- Claim C7: are_equivalent returns false exactly when the Search Engine
finds one formula satisfiable and the other not, and true when the verdicts
agree (both satisfiable or both unsatisfiable); in particular it returns true
on the disjoint-variable unsatisfiable pair [[1], [-1]] and [[2], [-2]]. -/
theorem C7_are_equivalent_same_verdict (f1 f2 : Formula) (s1 s2 : Bool)
    (st1 st2 : SATSolver)
    (h1 : (solverOfList f1).is_satisfiable = some (s1, st1))
    (h2 : (solverOfList f2).is_satisfiable = some (s2, st2)) :
    utils.are_equivalent f1 f2 = some (s1 == s2) ∧
      utils.are_equivalent [[1], [-1]] [[2], [-2]] = some true := by
  constructor
  · rw [utils.are_equivalent, h1, h2]
    cases s1 <;> cases s2 <;> rfl
  · decide

/-- Witness for C7 on the concrete satisfiable pair [[1]] and [[3]]. -/
theorem C7_witness :
    utils.are_equivalent [[1]] [[3]] = some (true == true) ∧
      utils.are_equivalent [[1], [-1]] [[2], [-2]] = some true :=
  C7_are_equivalent_same_verdict [[1]] [[3]] true true
    { formula_ := [[1]], num_variables_ := 1, assignment_ := [false, true],
      has_satisfying_assignment_ := true }
    { formula_ := [[3]], num_variables_ := 3,
      assignment_ := [false, false, false, true], has_satisfying_assignment_ := true }
    (by decide) (by decide)

end sat_solver
